import Mathlib

/-!
Verification development for the rule-based policy core of leaf-common.

The Python source is shallowly embedded: dictionaries become association
lists, Python float arithmetic becomes exact rational arithmetic, Python
int becomes Int, and code that can raise an exception returns an Option
(none = a raised exception) or an Except value.
-/

set_option autoImplicit false

namespace LeafCommon

/-- Association-list lookup modelling a Python dict read: some value when the
key is present, none (a KeyError at use sites that index directly) otherwise. -/
def dictGet {α β : Type} [DecidableEq α] (k : α) : List (α × β) → Option β
  | [] => none
  | p :: rest => if p.1 = k then some p.2 else dictGet k rest

/-- Python list indexing semantics: a negative index counts from the end;
an index out of range is an IndexError, modelled as none. -/
def pyIndex {α : Type} (l : List α) (i : Int) : Option α :=
  let j : Int := if i < 0 then (l.length : Int) + i else i
  if 0 ≤ j ∧ j < (l.length : Int) then l.get? j.toNat else none

/-- Python truthiness of an optional dictionary argument: None and the empty
dict are falsy, a non-empty dict is truthy. -/
def pyTruthy {α : Type} (o : Option (List α)) : Bool :=
  match o with
  | none => false
  | some l => !l.isEmpty

/-- Operator constants from rules_evaluation_constants.py. -/
def LESS_THAN : String := "<"

/-- Operator constant from rules_evaluation_constants.py. -/
def LESS_THAN_EQUAL : String := "<="

/-- Operator constant from rules_evaluation_constants.py. -/
def GREATER_THAN : String := ">"

/-- Operator constant from rules_evaluation_constants.py. -/
def GREATER_THAN_EQUAL : String := ">="

/-- Key constant from rules_evaluation_constants.py. -/
def MIN_KEY : String := "min"

/-- Key constant from rules_evaluation_constants.py. -/
def MAX_KEY : String := "max"

/-- A per-timestep observation: a dict from state key to numeric value
(leaf_common uses Python floats; we embed them as rationals). -/
abbrev StateMap : Type := List (String × ℚ)

/-- The min/max calibration dict of the older representation
(leaf_common/rule_based): keyed by the pair (state key, "min"/"max"). -/
abbrev MinMaxes : Type := List ((String × String) × ℚ)

/-- Condition of leaf_common/rule_based/condition.py: the states dict it was
constructed with plus its genetic-material fields. -/
structure OCondition where
  states : List (String × String)
  first_state_lookback : Int
  first_state_key : String
  first_state_coefficient : ℚ
  operator : String
  second_state_lookback : Int
  second_state_key : String
  second_state_value : ℚ
  second_state_coefficient : ℚ
deriving DecidableEq

/-- Whether the condition's second operand is a state reference: the source
tests membership of second_state_key in the states dict keys. -/
def OCondition.secondIsRef (c : OCondition) : Bool :=
  (dictGet c.second_state_key c.states).isSome

/-- Condition.get_second_state_value of leaf_common/rule_based/condition.py:
for a state-reference second operand, read the lagged state value and scale it
by the second coefficient; for a literal, rescale second_state_value through
the FIRST state key's min/max calibration. A missing dict key is a raised
KeyError, modelled as none. -/
def OCondition.getSecondStateValue (c : OCondition) (domain_states : List StateMap)
    (nb_states : Int) (min_maxes : MinMaxes) : Option ℚ :=
  if c.secondIsRef then
    match pyIndex domain_states (nb_states - c.second_state_lookback) with
    | none => none
    | some st =>
      match dictGet c.second_state_key st with
      | none => none
      | some v => some (v * c.second_state_coefficient)
  else
    match dictGet (c.first_state_key, MIN_KEY) min_maxes with
    | none => none
    | some the_min =>
      match dictGet (c.first_state_key, MAX_KEY) min_maxes with
      | none => none
      | some the_max => some (the_min + (the_max - the_min) * c.second_state_value)

/-- Condition.parse of leaf_common/rule_based/condition.py: with
nb_states = len(domain_states) - 1, insufficient history for either lookback
returns False; otherwise both operands are computed and compared with the
condition's operator string; an operator that is none of the four comparison
constants makes the final disjunction False. none models a raised exception. -/
def OCondition.parse (c : OCondition) (domain_states : List StateMap)
    (min_maxes : MinMaxes) : Option Bool :=
  let nb_states : Int := (domain_states.length : Int) - 1
  if nb_states < c.first_state_lookback ∨ nb_states < c.second_state_lookback then
    some false
  else
    match pyIndex domain_states (nb_states - c.first_state_lookback) with
    | none => none
    | some st =>
      match dictGet c.first_state_key st with
      | none => none
      | some v =>
        let operand_1 := v * c.first_state_coefficient
        match c.getSecondStateValue domain_states nb_states min_maxes with
        | none => none
        | some operand_2 =>
          some (decide ((c.operator = GREATER_THAN_EQUAL ∧ operand_1 ≥ operand_2) ∨
                        (c.operator = LESS_THAN_EQUAL ∧ operand_1 ≤ operand_2) ∨
                        (c.operator = GREATER_THAN ∧ operand_1 > operand_2) ∨
                        (c.operator = LESS_THAN ∧ operand_1 < operand_2)))

/-- Condition of representation/rule_based/data/condition.py (the newer,
config-driven representation): ten genetic-material fields, including the
exponents absent from the older representation. -/
structure RCondition where
  first_state_lookback : Int
  first_state_key : String
  first_state_coefficient : ℚ
  first_state_exponent : Int
  operator : String
  second_state_lookback : Int
  second_state_key : String
  second_state_value : ℚ
  second_state_coefficient : ℚ
  second_state_exponent : Int
deriving DecidableEq

/-- Modelled from the spec: representation/rule_based/data/rule.py is not in
src; per the data model a Rule is an ordered sequence of Conditions, an action
identifier, an action_lookback, and a mutable times_applied counter — exactly
the fields RuleEvaluator.evaluate reads and writes. -/
structure RRule where
  conditions : List RCondition
  action : String
  action_lookback : Int
  times_applied : Int
deriving DecidableEq

/-- The evaluation_data dict as consumed by RuleEvaluator.evaluate, which
reads only the observation-history entry: an ordered list of per-timestep
state maps, most recent last. -/
structure EvalData where
  observation_history : List StateMap

/-- The three return shapes of RuleEvaluator.evaluate:
[RulesConstants.NO_ACTION, 0], [rule.action, 0], and
[RulesConstants.LOOK_BACK, rule.action_lookback]. -/
inductive RuleOutcome where
  | noAction : RuleOutcome
  | actionTaken (a : String) : RuleOutcome
  | lookBack (lb : Int) : RuleOutcome
deriving DecidableEq

/-- RuleEvaluator.evaluate of
representation/rule_based/evaluation/rule_evaluator.py. The condition
evaluator (condition_evaluator.py is not in src) is a stateless strategy, so
it is abstracted as the pure function argument condEval. The mutation of
rule.times_applied is modelled by returning the updated rule alongside the
outcome. -/
def ruleEvaluate (condEval : RCondition → EvalData → Bool) (rule : RRule)
    (ed : EvalData) : RuleOutcome × RRule :=
  if rule.conditions.all (fun c => condEval c ed) then
    let nb_states : Int := (ed.observation_history.length : Int) - 1
    if nb_states < rule.action_lookback then
      (RuleOutcome.noAction, rule)
    else
      let rule' := { rule with times_applied := rule.times_applied + 1 }
      if rule.action_lookback = 0 then
        (RuleOutcome.actionTaken rule.action, rule')
      else
        (RuleOutcome.lookBack rule.action_lookback, rule')
  else
    (RuleOutcome.noAction, rule)

/-- CATEGORY_EXPLAINABLE_MARKER of
representation/rule_based/config/rule_set_config_helper.py. -/
def CATEGORY_EXPLAINABLE_MARKER : String := "_is_category_"

/-- One variable descriptor of a domain schema: name, size, and the category
values (the values list is read only when size > 1). -/
structure VarItem where
  name : String
  size : Int
  values : List String
deriving DecidableEq

/-- The inner for-loop of RuleSetConfigHelper._read_config_shape_var for a
categorical variable: entries for i = 0..count-1, each keyed by the running
var_index and named name + marker + values[i]; reading past the end of the
values list is an IndexError, modelled as none. -/
def catVarEntries (name : String) (values : List String) (idx i : Nat) :
    Nat → Option (List (String × String))
  | 0 => some []
  | Nat.succ k =>
    match values[i]? with
    | none => none
    | some v =>
      match catVarEntries name values idx (i + 1) k with
      | none => none
      | some es => some ((toString (idx + i), name ++ CATEGORY_EXPLAINABLE_MARKER ++ v) :: es)

/-- The loop of RuleSetConfigHelper._read_config_shape_var with the running
var_index made explicit: a variable with size > 1 contributes size entries via
catVarEntries, any other variable contributes the single entry name. -/
def readShapeLoop : List VarItem → Nat → Option (List (String × String))
  | [], _ => some []
  | v :: rest, idx =>
    if v.size > 1 then
      match catVarEntries v.name v.values idx 0 v.size.toNat with
      | none => none
      | some es =>
        match readShapeLoop rest (idx + v.size.toNat) with
        | none => none
        | some tail => some (es ++ tail)
    else
      match readShapeLoop rest (idx + 1) with
      | none => none
      | some tail => some ((toString idx, v.name) :: tail)

/-- RuleSetConfigHelper._read_config_shape_var: enumerate the variable
descriptors into a dict from stringified positional index to encoded name,
starting the index at 0. The dict is modelled as an association list in
insertion order. -/
def readConfigShapeVar (config_vars : List VarItem) : Option (List (String × String)) :=
  readShapeLoop config_vars 0

/-- The per-action voting tally kept by the rule-set evaluator: a vote count
and the sum of the contributing coefficients (the dict values the binding
evaluator reads through ACTION_COUNT_KEY and ACTION_COEFFICIENT_KEY). -/
structure ActionTally where
  count : Int
  coeffSum : ℚ
deriving DecidableEq

/-- The per-action score conversion of RuleSetBindingEvaluator.evaluate
(rule_set_binding_evaluator.py lines 49-56): coefficient sum divided by count
when the count is positive, the constant 0.0 otherwise. -/
def scoreOf (t : ActionTally) : ℚ :=
  if t.count > 0 then t.coeffSum / (t.count : ℚ) else 0

/-- The inner result loop of RuleSetBindingEvaluator.evaluate: one score per
action tally, in dict order. -/
def computeScores (tallies : List ActionTally) : List ℚ :=
  tallies.map scoreOf

/-- The min/max calibration dict of the newer representation: state key to a
dict holding the "min" and "max" entries. -/
abbrev RMinMaxes : Type := List (String × List (String × ℚ))

/-- RuleSet of representation/rule_based/data/rule_set.py: counters, default
action and coefficient, the owned rule list, and the owned min_maxes copy. -/
structure RRuleSet where
  times_applied : Int
  age_state : Int
  default_action : String
  default_action_coefficient : ℚ
  rules : List RRule
  min_maxes : RMinMaxes
deriving DecidableEq

/-- Add one vote of weight w for action a to the tally dict. -/
def bumpAction (tallies : List (String × ActionTally)) (a : String) (w : ℚ) :
    List (String × ActionTally) :=
  tallies.map (fun p => if p.1 = a then (p.1, ActionTally.mk (p.2.count + 1) (p.2.coeffSum + w)) else p)

/-- Modelled from the spec: RuleSetEvaluator.choose_action
(evaluation/rule_set_evaluator.py is not in src). Initialize every known
action to a zero tally; iterate the rules in order, and for each rule that
fires (the firing test plus lookback resolution is the caller-supplied
mechanism, abstracted as fires, yielding the attributed action and its
contribution weight) add one weighted vote; if no rule fired, attribute the
default action with weight default_action_coefficient; voteStep is one
iteration of its rule loop. -/
def voteStep (fires : RRule → Option (String × ℚ))
    (acc : List (String × ActionTally) × Bool) (r : RRule) :
    List (String × ActionTally) × Bool :=
  match fires r with
  | some aw => (bumpAction acc.1 aw.1 aw.2, true)
  | none => acc

/-- Modelled from the spec: the body of RuleSetEvaluator.choose_action, see
voteStep. -/
def chooseAction (fires : RRule → Option (String × ℚ)) (rs : RRuleSet)
    (knownActions : List String) : List (String × ActionTally) :=
  let init := knownActions.map (fun a => (a, ActionTally.mk 0 0))
  let res := rs.rules.foldl (voteStep fires) (init, false)
  if res.2 then res.1 else bumpAction res.1 rs.default_action rs.default_action_coefficient

/-- The attribute names defined on the RuleSetConfigHelper class in
config/rule_set_config_helper.py. -/
def ruleSetConfigHelperMethods : List String :=
  ["get_states", "get_actions", "_read_config_shape_var",
   "is_categorical", "extract_categorical_condition_name",
   "extract_categorical_condition_category"]

/-- Python runtime errors relevant to the embedded code paths. -/
inductive PyErr where
  | attributeError : PyErr
  | indexError : PyErr
deriving DecidableEq

/-- RuleSetBinding of representation/rule_based/data/rule_set_binding.py:
a RuleSet plus the domain schema descriptors it is bound to. -/
structure RuleSetBinding where
  rules : RRuleSet
  states : List VarItem
  actions : List VarItem

/-- RuleSetBindingEvaluator.evaluate of
representation/rule_based/evaluation/rule_set_binding_evaluator.py. A None or
non-RuleSetBinding component returns None; otherwise the method's first step
resolves the attribute read_config_shape_var on RuleSetConfigHelper, which
raises AttributeError when that name is not defined on the class. Everything
the method would do after the two encoding calls is abstracted as the
continuation rest, so the theorem quantifies over every possible remainder. -/
def bindingEvaluate
    (rest : RuleSetBinding → List (List ℚ) → List (String × String) →
      List (String × String) → Except PyErr (List (List ℚ)))
    (component : Option RuleSetBinding) (evaluation_data : List (List ℚ)) :
    Except PyErr (Option (List (List ℚ))) :=
  match component with
  | none => Except.ok none
  | some model =>
    if "read_config_shape_var" ∈ ruleSetConfigHelperMethods then
      match readConfigShapeVar model.states, readConfigShapeVar model.actions with
      | some encoded_states, some encoded_actions =>
        (rest model evaluation_data encoded_states encoded_actions).map some
      | _, _ => Except.error PyErr.indexError
    else
      Except.error PyErr.attributeError

/-- Fixed-precision rendering of a numeric value with
RulesConstants.DECIMAL_DIGITS = 2 digits, modelling the Python format
f-string with .2f: round to hundredths and print sign, integer part and a
two-digit fraction. -/
def fmt2 (q : ℚ) : String :=
  let n : Int := round (q * 100)
  let sign := if n < 0 then "-" else ""
  let m := n.natAbs
  let frac := m % 100
  let fracStr := if frac < 10 then "0" ++ toString frac else toString frac
  sign ++ toString (m / 100) ++ "." ++ fracStr

/-- Python str() applied to a numeric value inside an f-string, abstracted as
the canonical rational rendering. -/
def ratStr (q : ℚ) : String := toString q

/-- Condition.is_categorical of data/condition.py: whether the encoded name
contains the category marker (membership via marker split). -/
def isCategorical (condition_name : String) : Bool :=
  (condition_name.splitOn CATEGORY_EXPLAINABLE_MARKER).length > 1

/-- Condition.extract_categorical_condition_name of data/condition.py: the
part of the encoded name before the first marker occurrence. -/
def extractCategoricalConditionName (condition_name : String) : String :=
  (condition_name.splitOn CATEGORY_EXPLAINABLE_MARKER).headD ""

/-- Condition.extract_categorical_condition_category of data/condition.py:
element 1 of the marker split; absent marker makes that an IndexError,
modelled as none. -/
def extractCategoricalConditionCategory (condition_name : String) : Option String :=
  (condition_name.splitOn CATEGORY_EXPLAINABLE_MARKER).get? 1

/-- Condition._condition_part_to_string of data/condition.py: coefficient and
(translated) key, with the lookback suffix when lookback > 0 and the exponent
suffix when exponent > 1. The source checks states against None (not
truthiness) before the key-membership test. -/
def condPartToString (coeff : ℚ) (key : String) (lookback exponent : Int)
    (states : Option (List (String × String))) : String :=
  let use_key :=
    match states with
    | none => key
    | some st =>
      match dictGet key st with
      | some v => v
      | none => key
  let part := fmt2 coeff ++ "*" ++ use_key
  let part := if lookback > 0 then part ++ "[" ++ toString lookback ++ "]" else part
  if exponent > 1 then part ++ "^" ++ toString exponent else part

/-- Condition.continuous_to_string of data/condition.py: the first-operand
part, the operator, and a second part that is a state reference (when states
is truthy and holds the second key), a min/max-rescaled literal (when
min_maxes is truthy; a missing min or max entry is the TypeError the source
would raise on None arithmetic, modelled as none), or the bare literal. -/
def continuousToString (c : RCondition) (min_maxes : Option RMinMaxes)
    (states : Option (List (String × String))) : Option String :=
  let first_condition := condPartToString c.first_state_coefficient c.first_state_key
    c.first_state_lookback c.first_state_exponent states
  let second_condition : Option String :=
    if pyTruthy states && (match states with
        | some st => (dictGet c.second_state_key st).isSome
        | none => false) then
      some (condPartToString c.second_state_coefficient c.second_state_key
        c.second_state_lookback c.second_state_exponent states)
    else if pyTruthy min_maxes then
      let state_dict := match min_maxes with
        | some mm => (dictGet c.first_state_key mm).getD []
        | none => []
      match dictGet MIN_KEY state_dict, dictGet MAX_KEY state_dict with
      | some min_value, some max_value =>
        some (fmt2 (min_value + c.second_state_value * (max_value - min_value)) ++
          " \x7b" ++ ratStr min_value ++ ".." ++ ratStr max_value ++ "\x7d")
      | _, _ => none
    else
      some (fmt2 c.second_state_value)
  match second_condition with
  | none => none
  | some sc => some (first_condition ++ " " ++ c.operator ++ " " ++ sc)

/-- Condition.categorical_to_string of data/condition.py: name and category
from the marker split of the encoded first-state name, the lookback bracket
when positive, and the operator word, with "not" inserted exactly when the
operator is the less-than constant. -/
def categoricalToString (c : RCondition)
    (states : Option (List (String × String))) : Option String :=
  match states with
  | none => none
  | some st =>
    match dictGet c.first_state_key st with
    | none => none
    | some encoded =>
      match extractCategoricalConditionCategory encoded with
      | none => none
      | some category =>
        let name := extractCategoricalConditionName encoded
        let look_back := if c.first_state_lookback > 0 then
          "[" ++ toString c.first_state_lookback ++ "]" else ""
        let op := if c.operator = LESS_THAN then "is not" else "is"
        some (name ++ look_back ++ " " ++ op ++ " " ++ category)

/-- Condition.to_string of data/condition.py, with the object threaded
through every return path so the frame effect of the method is explicit: the
categorical branch is taken when states is truthy and the translated first
state name carries the category marker (reading the name from a truthy states
dict raises KeyError, modelled as none, when the key is missing). -/
def rcondToString (c : RCondition) (states : Option (List (String × String)))
    (min_maxes : Option RMinMaxes) : Option String × RCondition :=
  if pyTruthy states then
    match states with
    | none => (none, c)
    | some st =>
      match dictGet c.first_state_key st with
      | none => (none, c)
      | some nm =>
        if isCategorical nm then
          (categoricalToString c states, c)
        else
          (continuousToString c min_maxes states, c)
  else
    (continuousToString c min_maxes states, c)

/-- Modelled from the spec: Rule.to_string (data/rule.py is not in src); per
the renderer design a rule renders as its conditions' strings joined by
" AND ", suffixed with the action name (translated through the actions dict
when present), and the object is threaded through unchanged like the other
render methods. -/
def ruleToString (r : RRule) (states : Option (List (String × String)))
    (actions : Option (List (String × String))) (min_maxes : Option RMinMaxes) :
    Option String × RRule :=
  let action_name :=
    match actions with
    | none => r.action
    | some acts =>
      match dictGet r.action acts with
      | some v => v
      | none => r.action
  let condStrs := r.conditions.mapM (fun c => (rcondToString c states min_maxes).1)
  match condStrs with
  | none => (none, r)
  | some parts => (some (String.intercalate " AND " parts ++ " -> " ++ action_name), r)

/-- The rule loop of RuleSet.to_string: each rule's string plus a newline, in
order, threading every rule through its own to_string; a none from a rule
stops the rendering (the raised exception propagates). -/
def rulesStrLoop (states actions : Option (List (String × String)))
    (min_maxes : Option RMinMaxes) : List RRule → Option String × List RRule
  | [] => (some "", [])
  | r :: rest =>
    let hd := ruleToString r states actions min_maxes
    match hd.1 with
    | none => (none, hd.2 :: rest)
    | some s =>
      let tl := rulesStrLoop states actions min_maxes rest
      match tl.1 with
      | none => (none, hd.2 :: tl.2)
      | some t => (some (s ++ "\n" ++ t), hd.2 :: tl.2)

/-- RuleSet.to_string of data/rule_set.py with the object threaded through:
the default action name is translated through the actions dict when present,
the rules render in order through rulesStrLoop against the set's own
min_maxes, the times-applied marker is angle brackets (empty when the counter
is not positive), and the default-action line carries the
coefficient-weighted default action name. -/
def ruleSetToString (rs : RRuleSet) (states actions : Option (List (String × String))) :
    Option String × RRuleSet :=
  let action_name :=
    match actions with
    | none => rs.default_action
    | some acts =>
      match dictGet rs.default_action acts with
      | some v => v
      | none => rs.default_action
  let loop := rulesStrLoop states actions (some rs.min_maxes) rs.rules
  let rs' := { rs with rules := loop.2 }
  match loop.1 with
  | none => (none, rs')
  | some rules_str =>
    let times_applied := if rs.times_applied > 0 then
      " <" ++ toString rs.times_applied ++ "> " else " <> "
    let coefficient_part := fmt2 rs.default_action_coefficient ++ "*"
    (some (rules_str ++ times_applied ++ "Default Action: " ++ coefficient_part ++
      action_name ++ "\n"), rs')

/-- The condition of the spec's evaluation example: first state temp with
lookback 0 and coefficient 1, operator >=, literal second operand 0.5. -/
def tempCond : OCondition :=
  { states := [("temp", "temp")]
    first_state_lookback := 0
    first_state_key := "temp"
    first_state_coefficient := 1
    operator := ">="
    second_state_lookback := 0
    second_state_key := "value"
    second_state_value := 1/2
    second_state_coefficient := 1 }

/-- The calibration of the spec's evaluation example: temp ranges over
min 0, max 100. -/
def tempMM : MinMaxes := [(("temp", "min"), 0), (("temp", "max"), 100)]

/-- The encoded names one variable descriptor contributes, stated the way the
claim describes them: a variable with size > 1 contributes size names of the
form name + marker + values[i] in order, any other variable contributes the
single name. This is the claim-side description the source-translated
readConfigShapeVar is compared against. -/
def specVarNames (v : VarItem) : List String :=
  if v.size > 1 then
    (v.values.take v.size.toNat).map (fun s => v.name ++ CATEGORY_EXPLAINABLE_MARKER ++ s)
  else
    [v.name]

/-- A concrete condition of the newer representation for the C9 witness. -/
def exRCond : RCondition :=
  { first_state_lookback := 0
    first_state_key := "temp"
    first_state_coefficient := 1
    first_state_exponent := 1
    operator := ">="
    second_state_lookback := 0
    second_state_key := "value"
    second_state_value := 1/2
    second_state_coefficient := 1
    second_state_exponent := 1 }

/-- A concrete rule for the C9 witness. -/
def exRRule : RRule := RRule.mk [exRCond] "action1" 0 0

/-- A concrete rule set for the C9 witness. -/
def exRRuleSet : RRuleSet :=
  RRuleSet.mk 3 0 "action1" 1 [exRRule] [("temp", [("min", 0), ("max", 100)])]

/-- Claim C1: for every condition and observation history, when the history
index n = len(history) - 1 is below first_state_lookback, or (for a
state-reference second operand) below second_state_lookback, Condition.parse
returns False: insufficient history is never an exception (none) and never a
match (some true). -/
theorem parse_insufficient_history_returns_false (c : OCondition)
    (ds : List StateMap) (mm : MinMaxes)
    (h : (ds.length : Int) - 1 < c.first_state_lookback ∨
      c.secondIsRef = true ∧ (ds.length : Int) - 1 < c.second_state_lookback) :
    c.parse ds mm = some false := by
  have hguard : (ds.length : Int) - 1 < c.first_state_lookback ∨
      (ds.length : Int) - 1 < c.second_state_lookback := by
    rcases h with h | h
    · exact Or.inl h
    · exact Or.inr h.2
  simp only [OCondition.parse]
  rw [if_pos hguard]

/-- Witness for C1: a lookback-1 condition against a single-step history. -/
theorem parse_insufficient_history_returns_false_witness :
    ((([[("temp", (60 : ℚ))]] : List StateMap).length : Int) - 1 <
      ({ tempCond with first_state_lookback := 1 } : OCondition).first_state_lookback ∨
      ({ tempCond with first_state_lookback := 1 } : OCondition).secondIsRef = true ∧
      (([[("temp", (60 : ℚ))]] : List StateMap).length : Int) - 1 <
      ({ tempCond with first_state_lookback := 1 } : OCondition).second_state_lookback) ∧
    ({ tempCond with first_state_lookback := 1 } : OCondition).parse
      [[("temp", (60 : ℚ))]] tempMM = some false :=
  ⟨Or.inl (by decide),
   parse_insufficient_history_returns_false _ _ _ (Or.inl (by decide))⟩

/-- Claim C2: a rule with action_lookback = 0 whose conditions all hold on a
non-empty history returns the action outcome carrying rule.action, with
times_applied incremented by exactly 1. -/
theorem rule_fires_action_and_increments (condEval : RCondition → EvalData → Bool)
    (rule : RRule) (ed : EvalData)
    (h0 : rule.action_lookback = 0)
    (hc : ∀ c ∈ rule.conditions, condEval c ed = true)
    (hh : 0 ≤ (ed.observation_history.length : Int) - 1) :
    ruleEvaluate condEval rule ed =
      (RuleOutcome.actionTaken rule.action,
       { rule with times_applied := rule.times_applied + 1 }) := by
  have hall : rule.conditions.all (fun c => condEval c ed) = true :=
    List.all_eq_true.mpr hc
  simp only [ruleEvaluate]
  rw [if_pos hall]
  rw [if_neg (by rw [h0]; omega)]
  rw [if_pos h0]

/-- Witness for C2: a condition-free rule with lookback 0 on a one-step
history fires its action and bumps the counter. -/
theorem rule_fires_action_and_increments_witness :
    (RRule.mk [] "action1" 0 5).action_lookback = 0 ∧
    (∀ c ∈ (RRule.mk [] "action1" 0 5).conditions,
      (fun (_ : RCondition) (_ : EvalData) => true) c (EvalData.mk [[("x", 1)]]) = true) ∧
    0 ≤ (((EvalData.mk [[("x", 1)]]).observation_history.length : Int) - 1) ∧
    ruleEvaluate (fun _ _ => true) (RRule.mk [] "action1" 0 5) (EvalData.mk [[("x", 1)]]) =
      (RuleOutcome.actionTaken "action1", RRule.mk [] "action1" 0 6) :=
  ⟨rfl, by simp, by decide,
   rule_fires_action_and_increments _ _ _ rfl (by simp) (by decide)⟩

/-- Claim C3: whatever the conditions evaluate to, a rule whose
action_lookback exceeds len(history) - 1 returns the no-match outcome and
leaves times_applied unchanged. -/
theorem rule_insufficient_action_lookback_no_match
    (condEval : RCondition → EvalData → Bool) (rule : RRule) (ed : EvalData)
    (h : (ed.observation_history.length : Int) - 1 < rule.action_lookback) :
    ruleEvaluate condEval rule ed = (RuleOutcome.noAction, rule) := by
  simp only [ruleEvaluate]
  by_cases hall : rule.conditions.all (fun c => condEval c ed) = true
  · rw [if_pos hall, if_pos h]
  · rw [if_neg hall]

/-- Witness for C3: a condition-free rule (so all conditions hold) with
lookback 2 against a one-step history stays unmatched and unchanged. -/
theorem rule_insufficient_action_lookback_no_match_witness :
    (((EvalData.mk [[("x", 1)]]).observation_history.length : Int) - 1 <
      (RRule.mk [] "action1" 2 5).action_lookback) ∧
    ruleEvaluate (fun _ _ => true) (RRule.mk [] "action1" 2 5) (EvalData.mk [[("x", 1)]]) =
      (RuleOutcome.noAction, RRule.mk [] "action1" 2 5) :=
  ⟨by decide, rule_insufficient_action_lookback_no_match _ _ _ (by decide)⟩

/-- Claim C4: for a literal second operand (second_state_key absent from the
states map), the comparison threshold is min + second_state_value * (max -
min) computed from the calibration entries of the FIRST state key. -/
theorem literal_threshold_uses_first_state_calibration (c : OCondition)
    (ds : List StateMap) (nb : Int) (mm : MinMaxes) (mn mx : ℚ)
    (href : c.secondIsRef = false)
    (hmin : dictGet (c.first_state_key, MIN_KEY) mm = some mn)
    (hmax : dictGet (c.first_state_key, MAX_KEY) mm = some mx) :
    c.getSecondStateValue ds nb mm = some (mn + c.second_state_value * (mx - mn)) := by
  simp only [OCondition.getSecondStateValue, href, Bool.false_eq_true, if_false,
    hmin, hmax]
  exact congrArg some (by ring)

/-- Witness for C4: the spec's example. With calibration temp in 0..100 and
literal 0.5 the threshold is 50, and parse accepts a current temp of 60. -/
theorem literal_threshold_uses_first_state_calibration_witness :
    tempCond.secondIsRef = false ∧
    dictGet (tempCond.first_state_key, MIN_KEY) tempMM = some 0 ∧
    dictGet (tempCond.first_state_key, MAX_KEY) tempMM = some 100 ∧
    tempCond.getSecondStateValue [[("temp", 60)]] 0 tempMM =
      some (0 + tempCond.second_state_value * (100 - 0)) ∧
    (0 : ℚ) + tempCond.second_state_value * (100 - 0) = 50 ∧
    tempCond.parse [[("temp", 60)]] tempMM = some true := by
  refine ⟨by decide, by decide, by decide, ?_, ?_, ?_⟩
  · exact literal_threshold_uses_first_state_calibration tempCond _ 0 tempMM 0 100
      (by decide) (by decide) (by decide)
  · simp [tempCond]
    norm_num
  · simp [OCondition.parse, OCondition.getSecondStateValue, OCondition.secondIsRef,
      dictGet, pyIndex, tempCond, tempMM, GREATER_THAN_EQUAL, GREATER_THAN,
      LESS_THAN, LESS_THAN_EQUAL, MIN_KEY, MAX_KEY]
    norm_num

/-- Claim C6: the per-action score delivered by the binding evaluator is the
coefficient sum divided by the vote count when the count is positive, and
exactly 0 when the count is zero; the zero case is a defined value, not a
division error. -/
theorem vote_score_average_or_zero (t : ActionTally) :
    (0 < t.count → scoreOf t = t.coeffSum / (t.count : ℚ)) ∧
    (t.count = 0 → scoreOf t = 0) := by
  constructor
  · intro h
    simp only [scoreOf]
    rw [if_pos h]
  · intro h
    simp only [scoreOf]
    rw [if_neg (by omega)]

/-- Witness for C6: two votes of total weight 3 average to 3/2; a zero-count
tally scores 0. -/
theorem vote_score_average_or_zero_witness :
    (0 : Int) < 2 ∧
    scoreOf (ActionTally.mk 2 3) = 3 / ((2 : Int) : ℚ) ∧
    scoreOf (ActionTally.mk 0 5) = 0 :=
  ⟨by decide,
   (vote_score_average_or_zero (ActionTally.mk 2 3)).1 (by decide),
   (vote_score_average_or_zero (ActionTally.mk 0 5)).2 rfl⟩

/-- Counterexample to claim C8 as stated: the operator "==" is none of the
four supported comparison symbols, yet neither construction nor evaluation
fails; Condition.parse silently evaluates the condition as a non-match,
returning False instead of raising a configuration error. -/
theorem unsupported_operator_silently_ignored_cex :
    ({ tempCond with operator := "==" } : OCondition).operator ∉
      [GREATER_THAN_EQUAL, LESS_THAN_EQUAL, GREATER_THAN, LESS_THAN] ∧
    ({ tempCond with operator := "==" } : OCondition).parse
      [[("temp", (60 : ℚ))]] tempMM = some false := by
  refine ⟨by decide, ?_⟩
  simp [OCondition.parse, OCondition.getSecondStateValue, OCondition.secondIsRef,
    dictGet, pyIndex, tempCond, tempMM, GREATER_THAN_EQUAL, GREATER_THAN,
    LESS_THAN, LESS_THAN_EQUAL, MIN_KEY, MAX_KEY]

/-- Claim C8 amended: no operator validation exists; a condition whose
operator is none of the four supported symbols is never treated as a match
during evaluation: its parse result is never True (it is False whenever the
comparison is reached, and the operator itself never raises). -/
theorem unsupported_operator_never_matches (c : OCondition)
    (ds : List StateMap) (mm : MinMaxes)
    (h1 : c.operator ≠ GREATER_THAN_EQUAL) (h2 : c.operator ≠ LESS_THAN_EQUAL)
    (h3 : c.operator ≠ GREATER_THAN) (h4 : c.operator ≠ LESS_THAN) :
    c.parse ds mm ≠ some true := by
  simp only [OCondition.parse]
  split
  · simp
  · split
    · simp
    · split
      · simp
      · split
        · simp
        · simp [h1, h2, h3, h4]

/-- Witness for the amended C8: the "==" condition never matches. -/
theorem unsupported_operator_never_matches_witness :
    ({ tempCond with operator := "==" } : OCondition).operator ≠ GREATER_THAN_EQUAL ∧
    ({ tempCond with operator := "==" } : OCondition).operator ≠ LESS_THAN_EQUAL ∧
    ({ tempCond with operator := "==" } : OCondition).operator ≠ GREATER_THAN ∧
    ({ tempCond with operator := "==" } : OCondition).operator ≠ LESS_THAN ∧
    ({ tempCond with operator := "==" } : OCondition).parse
      [[("temp", (60 : ℚ))]] tempMM ≠ some true :=
  ⟨by decide, by decide, by decide, by decide,
   unsupported_operator_never_matches _ _ _ (by decide) (by decide) (by decide) (by decide)⟩

/-- Claim C10: for every non-None RuleSetBinding component and every
evaluation data, RuleSetBindingEvaluator.evaluate hits an AttributeError
before producing any result, whatever the rest of the method would compute,
because read_config_shape_var is not among the attributes defined on
RuleSetConfigHelper. -/
theorem binding_evaluate_raises_attribute_error
    (rest : RuleSetBinding → List (List ℚ) → List (String × String) →
      List (String × String) → Except PyErr (List (List ℚ)))
    (m : RuleSetBinding) (ed : List (List ℚ)) :
    bindingEvaluate rest (some m) ed = Except.error PyErr.attributeError := by
  simp only [bindingEvaluate]
  rw [if_neg (by decide)]

/-- The categorical inner loop enumerates exactly the marker-joined names,
keyed by the running index, whenever the values list is long enough. -/
theorem catVarEntries_eq (name : String) (values : List String) (idx : Nat) :
    ∀ (count i : Nat), i + count ≤ values.length →
    catVarEntries name values idx i count =
      some ((List.enumFrom (idx + i)
        (((values.drop i).take count).map (fun s => name ++ CATEGORY_EXPLAINABLE_MARKER ++ s))).map
        (fun p => (toString p.1, p.2))) := by
  intro count
  induction count with
  | zero =>
    intro i h
    simp [catVarEntries]
  | succ k ih =>
    intro i h
    have hi : i < values.length := by omega
    simp only [catVarEntries, List.getElem?_eq_getElem hi]
    rw [ih (i + 1) (by omega)]
    rw [List.drop_eq_getElem_cons hi, List.take_succ_cons, List.map_cons,
      List.enumFrom_cons, List.map_cons]
    have harr : idx + i + 1 = idx + (i + 1) := by omega
    rw [harr]

/-- The var_index loop of _read_config_shape_var enumerates the concatenation
of all variables' encoded names, keyed consecutively from the start index. -/
theorem readShapeLoop_eq : ∀ (vars : List VarItem) (idx : Nat),
    (∀ v ∈ vars, v.size > 1 → v.size.toNat ≤ v.values.length) →
    readShapeLoop vars idx =
      some ((List.enumFrom idx (vars.flatMap specVarNames)).map
        (fun p => (toString p.1, p.2))) := by
  intro vars
  induction vars with
  | nil =>
    intro idx h
    simp [readShapeLoop]
  | cons v rest ih =>
    intro idx h
    have hrest : ∀ u ∈ rest, u.size > 1 → u.size.toNat ≤ u.values.length :=
      fun u hu => h u (List.mem_cons_of_mem v hu)
    by_cases hv : v.size > 1
    · have hlen : v.size.toNat ≤ v.values.length := h v (List.mem_cons_self v rest) hv
      simp only [readShapeLoop]
      rw [if_pos hv]
      rw [catVarEntries_eq v.name v.values idx v.size.toNat 0 (by omega)]
      rw [ih (idx + v.size.toNat) hrest]
      have hnames : specVarNames v =
          ((v.values.drop 0).take v.size.toNat).map
            (fun s => v.name ++ CATEGORY_EXPLAINABLE_MARKER ++ s) := by
        simp [specVarNames, hv]
      have hnlen : (specVarNames v).length = v.size.toNat := by
        rw [hnames]
        simp
        omega
      rw [List.flatMap_cons, List.enumFrom_append, hnlen, List.map_append]
      rw [hnames]
      simp
    · simp only [readShapeLoop]
      rw [if_neg hv]
      rw [ih (idx + 1) hrest]
      have hnames : specVarNames v = [v.name] := by simp [specVarNames, hv]
      rw [List.flatMap_cons, hnames]
      simp [List.enumFrom_cons]

/-- Claim C5: whenever every categorical descriptor carries enough values,
the ConfigHelper encoding is exactly the enumeration of the variables'
encoded names in input order: entry j is keyed by the string of j (so the key
set is the contiguous strings 0..N-1), a size > 1 variable contributes size
consecutive marker-joined entries, and a size 1 variable contributes its
name. -/
theorem read_config_shape_var_enumeration (vars : List VarItem)
    (h : ∀ v ∈ vars, v.size > 1 → v.size.toNat ≤ v.values.length) :
    readConfigShapeVar vars =
      some (((vars.flatMap specVarNames).enum).map (fun p => (toString p.1, p.2))) ∧
    ∃ m, readConfigShapeVar vars = some m ∧
      m.map Prod.fst = (List.range (vars.flatMap specVarNames).length).map toString ∧
      m.map Prod.snd = vars.flatMap specVarNames := by
  have hmain : readConfigShapeVar vars =
      some (((vars.flatMap specVarNames).enum).map (fun p => (toString p.1, p.2))) := by
    rw [readConfigShapeVar, readShapeLoop_eq vars 0 h]
    rfl
  refine ⟨hmain, _, hmain, ?_, ?_⟩
  · rw [List.map_map]
    have hcomp : (Prod.fst ∘ fun p : Nat × String => (toString p.1, p.2)) =
        toString ∘ Prod.fst := rfl
    rw [hcomp, ← List.map_map, List.enum_map_fst]
  · rw [List.map_map]
    have hcomp : (Prod.snd ∘ fun p : Nat × String => (toString p.1, p.2)) =
        (Prod.snd : Nat × String → String) := rfl
    rw [hcomp, List.enum_map_snd]

/-- Witness for C5: the spec's encoding example, a scalar context variable
followed by a two-valued mode variable. -/
theorem read_config_shape_var_enumeration_witness :
    (∀ v ∈ [VarItem.mk "context" 1 ["float"], VarItem.mk "mode" 2 ["A", "B"]],
      v.size > 1 → v.size.toNat ≤ v.values.length) ∧
    readConfigShapeVar [VarItem.mk "context" 1 ["float"], VarItem.mk "mode" 2 ["A", "B"]] =
      some ((([VarItem.mk "context" 1 ["float"], VarItem.mk "mode" 2 ["A", "B"]].flatMap
        specVarNames).enum).map (fun p => (toString p.1, p.2))) ∧
    readConfigShapeVar [VarItem.mk "context" 1 ["float"], VarItem.mk "mode" 2 ["A", "B"]] =
      some [("0", "context"), ("1", "mode_is_category_A"), ("2", "mode_is_category_B")] :=
  ⟨by decide,
   (read_config_shape_var_enumeration _ (by decide)).1,
   by decide⟩

/-- A rule loop in which no rule fires leaves the accumulated tallies (and
the fired flag) untouched. -/
theorem voteFoldl_no_fire (fires : RRule → Option (String × ℚ)) :
    ∀ (l : List RRule) (acc : List (String × ActionTally) × Bool),
    (∀ r ∈ l, fires r = none) → l.foldl (voteStep fires) acc = acc := by
  intro l
  induction l with
  | nil => intro acc _; rfl
  | cons r rest ih =>
    intro acc h
    rw [List.foldl_cons]
    have hstep : voteStep fires acc r = acc := by
      simp [voteStep, h r (List.mem_cons_self r rest)]
    rw [hstep]
    exact ih acc (fun u hu => h u (List.mem_cons_of_mem r hu))

/-- Scoring the zero-initialized tallies after a single weighted default vote
yields the weight for the default entry and zero everywhere else. -/
theorem bump_init_scores (known : List String) (d : String) (w : ℚ) :
    (bumpAction (known.map (fun a => (a, ActionTally.mk 0 0))) d w).map
      (fun p => (p.1, scoreOf p.2)) =
    known.map (fun a => (a, if a = d then w else 0)) := by
  induction known with
  | nil => rfl
  | cons a rest ih =>
    simp only [List.map_cons, bumpAction] at ih ⊢
    by_cases ha : a = d
    · simp only [ha, if_pos rfl, if_true]
      rw [ih]
      norm_num [scoreOf]
    · simp only [ha, if_false, ite_false]
      rw [ih]
      norm_num [scoreOf, ha]

/-- Claim C7: when no rule fires, choose_action followed by the binding
evaluator's score conversion reports the default action at exactly
default_action_coefficient and every other known action at 0. -/
theorem choose_action_no_fire_scores_default (fires : RRule → Option (String × ℚ))
    (rs : RRuleSet) (known : List String)
    (hnone : ∀ r ∈ rs.rules, fires r = none)
    (_hmem : rs.default_action ∈ known) :
    (chooseAction fires rs known).map (fun p => (p.1, scoreOf p.2)) =
      known.map (fun a =>
        (a, if a = rs.default_action then rs.default_action_coefficient else 0)) := by
  simp only [chooseAction]
  rw [voteFoldl_no_fire fires rs.rules _ hnone]
  simp only [Bool.false_eq_true, if_false]
  exact bump_init_scores known rs.default_action rs.default_action_coefficient

/-- Witness for C7: an empty rule list (so nothing fires) with default action
a at coefficient 2 and known actions a and b. -/
theorem choose_action_no_fire_scores_default_witness :
    (∀ r ∈ (RRuleSet.mk 0 0 "a" 2 [] []).rules, (fun (_ : RRule) =>
      (none : Option (String × ℚ))) r = none) ∧
    (RRuleSet.mk 0 0 "a" 2 [] []).default_action ∈ ["a", "b"] ∧
    (chooseAction (fun _ => none) (RRuleSet.mk 0 0 "a" 2 [] []) ["a", "b"]).map
      (fun p => (p.1, scoreOf p.2)) =
    ["a", "b"].map (fun a =>
      (a, if a = (RRuleSet.mk 0 0 "a" 2 [] []).default_action
        then (RRuleSet.mk 0 0 "a" 2 [] []).default_action_coefficient else 0)) :=
  ⟨fun r hr => rfl, by decide,
   choose_action_no_fire_scores_default _ _ _ (fun r hr => rfl) (by decide)⟩

/-- Condition.to_string returns with the condition object untouched on every
path. -/
theorem rcondToString_snd (c : RCondition) (states : Option (List (String × String)))
    (mm : Option RMinMaxes) : (rcondToString c states mm).2 = c := by
  unfold rcondToString
  split
  · split
    · rfl
    · split
      · rfl
      · split <;> rfl
  · rfl

/-- Rule.to_string returns with the rule object untouched on every path. -/
theorem ruleToString_snd (r : RRule) (states actions : Option (List (String × String)))
    (mm : Option RMinMaxes) : (ruleToString r states actions mm).2 = r := by
  unfold ruleToString
  repeat' split
  all_goals
    cases hx : r.conditions.mapM (fun c => (rcondToString c states mm).1) <;>
      simp [hx]

/-- Rendering a rule list threads every rule through unchanged. -/
theorem rulesStrLoop_snd (states actions : Option (List (String × String)))
    (mm : Option RMinMaxes) : ∀ l : List RRule,
    (rulesStrLoop states actions mm l).2 = l := by
  intro l
  induction l with
  | nil => rfl
  | cons r rest ih =>
    simp only [rulesStrLoop]
    split
    · simp [ruleToString_snd]
    · split <;> simp [ruleToString_snd, ih]

/-- RuleSet.to_string returns with the rule set untouched on every path. -/
theorem ruleSetToString_snd (rs : RRuleSet)
    (states actions : Option (List (String × String))) :
    (ruleSetToString rs states actions).2 = rs := by
  have h2 := rulesStrLoop_snd states actions (some rs.min_maxes) rs.rules
  unfold ruleSetToString
  cases hy : (rulesStrLoop states actions (some rs.min_maxes) rs.rules).1 <;>
    simp [hy, h2]

/-- Claim C9: rendering is a pure read: Condition.to_string, Rule.to_string
and RuleSet.to_string leave every field of the entity unchanged, and two
renderings of equal entities against the same states and min_maxes maps
produce identical strings. -/
theorem rendering_pure_and_deterministic (c c' : RCondition) (r : RRule)
    (rs rs' : RRuleSet) (states actions : Option (List (String × String)))
    (mm : Option RMinMaxes) (hc : c' = c) (hrs : rs' = rs) :
    (rcondToString c states mm).2 = c ∧
    (ruleToString r states actions mm).2 = r ∧
    (ruleSetToString rs states actions).2 = rs ∧
    (rcondToString c' states mm).1 = (rcondToString c states mm).1 ∧
    (ruleSetToString rs' states actions).1 = (ruleSetToString rs states actions).1 :=
  ⟨rcondToString_snd c states mm,
   ruleToString_snd r states actions mm,
   ruleSetToString_snd rs states actions,
   by rw [hc],
   by rw [hrs]⟩

/-- Witness for C9 at concrete entities and maps. -/
theorem rendering_pure_and_deterministic_witness :
    (rcondToString exRCond none none).2 = exRCond ∧
    (ruleToString exRRule none none none).2 = exRRule ∧
    (ruleSetToString exRRuleSet none none).2 = exRRuleSet ∧
    (rcondToString exRCond none none).1 = (rcondToString exRCond none none).1 ∧
    (ruleSetToString exRRuleSet none none).1 = (ruleSetToString exRRuleSet none none).1 :=
  rendering_pure_and_deterministic exRCond exRCond exRRule exRRuleSet exRRuleSet
    none none none rfl rfl

end LeafCommon
